import Mathlib

/-!
Verification of the keevor-mysql-mcp-server core logic
(`src/keevor_mysql_mcp_server/__init__.py`).

The development shallowly embeds the Python source: pure fragments become
Lean functions, the module-level connection pool becomes explicit state
passing, database round trips become explicit inputs (the rows / row counts
/ exceptions the driver would deliver), and `try/except` boundaries become
total functions into structured result types.  A `failure e` value stands
for the JSON text `{"error": e, "success": false}` that `_format_error`
(lines 67-69) produces; the other result constructors likewise stand for the
dictionaries handed to `json.dumps`.
-/

namespace Keevor

/-! ## Python string primitives used by the source

`str.strip()` (no argument) removes leading and trailing whitespace; the
source only ever strips ASCII SQL text, so the ASCII whitespace set
`" \t\n\r\x0b\x0c"` is modelled.  `str.upper()` is modelled on ASCII
characters (the keyword comparisons in the source involve only ASCII).
-/

def pyWhitespace (c : Char) : Bool :=
  c == ' ' || c == '\t' || c == '\n' || c == '\r' || c == '\x0b' || c == '\x0c'

def pyStrip (s : String) : String :=
  String.mk (((s.toList.dropWhile pyWhitespace).reverse.dropWhile pyWhitespace).reverse)

def pyUpper (s : String) : String :=
  String.mk (s.toList.map Char.toUpper)

def pyStartsWith (s p : String) : Bool :=
  p.toList.isPrefixOf s.toList

/-- Value of a decimal digit list, most significant first. -/
def digitsVal (ds : List Char) : Int :=
  ds.foldl (fun a c => a * 10 + (Int.ofNat (c.toNat - 48))) 0

/-- Python `int(s)` on a decimal string: surrounding whitespace allowed, an
optional sign, then at least one ASCII digit; anything else raises
`ValueError`, modelled as `none`. -/
def pyInt (s : String) : Option Int :=
  let t := ((s.toList.dropWhile pyWhitespace).reverse.dropWhile pyWhitespace).reverse
  match t with
  | '-' :: ds => if !ds.isEmpty && ds.all Char.isDigit then some (-(digitsVal ds)) else none
  | '+' :: ds => if !ds.isEmpty && ds.all Char.isDigit then some (digitsVal ds) else none
  | ds => if !ds.isEmpty && ds.all Char.isDigit then some (digitsVal ds) else none

/-! ## Python date / datetime values

pymysql delivers MySQL DATE columns as `datetime.date` objects and both
DATETIME and TIMESTAMP columns as `datetime.datetime` objects.  The
`isoformat` methods are modelled after CPython: dates render as
`YYYY-MM-DD`; datetimes render as `YYYY-MM-DDTHH:MM:SS`, with a
`.ffffff` microsecond suffix only when the microsecond field is nonzero.
-/

/-- Left-pad the decimal rendering of `n` with zeros to width `w`. -/
def padNum (w : Nat) (n : Nat) : String :=
  let s := toString n
  String.mk (List.replicate (w - s.length) '0') ++ s

structure PyDate where
  year : Nat
  month : Nat
  day : Nat
  deriving DecidableEq, Repr

def PyDate.isoformat (d : PyDate) : String :=
  padNum 4 d.year ++ "-" ++ padNum 2 d.month ++ "-" ++ padNum 2 d.day

structure PyDateTime where
  year : Nat
  month : Nat
  day : Nat
  hour : Nat
  minute : Nat
  second : Nat
  microsecond : Nat
  deriving DecidableEq, Repr

def PyDateTime.isoformat (t : PyDateTime) : String :=
  padNum 4 t.year ++ "-" ++ padNum 2 t.month ++ "-" ++ padNum 2 t.day ++ "T" ++
  padNum 2 t.hour ++ ":" ++ padNum 2 t.minute ++ ":" ++ padNum 2 t.second ++
  (if t.microsecond ≠ 0 then "." ++ padNum 6 t.microsecond else "")

/-- A cell value as pymysql hands it to the formatting loop of
`execute_sql` (lines 238-246).  `date` and `datetime` are the values with
an `isoformat` attribute; the remaining constructors lack one. -/
inductive PyValue where
  | none
  | int (n : Int)
  | str (s : String)
  | date (d : PyDate)
  | datetime (t : PyDateTime)
  deriving DecidableEq, Repr

/-- Lines 242-245: `if hasattr(value, 'isoformat'): value.isoformat()`,
otherwise the value passes through unchanged. -/
def formatValue : PyValue → PyValue
  | .date d => .str d.isoformat
  | .datetime t => .str t.isoformat
  | v => v

/-- One result row is an insertion-ordered dict (pymysql `DictCursor`). -/
abbrev Row := List (String × PyValue)

/-- Lines 239-246: rebuild the row, converting every value that has an
`isoformat` attribute. -/
def formatRow (row : Row) : Row :=
  row.map (fun kv => (kv.1, formatValue kv.2))

/-- The MySQL temporal column types named by the specification. -/
inductive MySqlTemporalType where
  | DATE
  | DATETIME
  | TIMESTAMP
  deriving DecidableEq, Repr

/-- pymysql's converters: a DATE cell holding a given point in time becomes
a `datetime.date` (the calendar-day part); DATETIME and TIMESTAMP cells
become full `datetime.datetime` objects. -/
def pymysqlConvert : MySqlTemporalType → PyDateTime → PyValue
  | .DATE, t => .date ⟨t.year, t.month, t.day⟩
  | .DATETIME, t => .datetime t
  | .TIMESTAMP, t => .datetime t

/-! ## Connection configuration (`_get_db_config`, lines 16-32)

The environment is a partial map from variable names to strings;
`os.getenv(k, d)` returns the stored value or the default `d`.  The
`cursorclass` entry of the returned dict is a Python class object
(`DictCursor`) with no data content and is not modelled as a field; the
`DictCursor` row shape is modelled by `Row` above.
-/

def Env := String → Option String

def getenvD (env : Env) (k d : String) : String :=
  (env k).getD d

structure DbConfig where
  host : String
  port : Int
  user : String
  password : String
  database : String
  charset : String
  autocommit : Bool
  deriving DecidableEq, Repr

/-- Lines 16-32: read every field from the environment at call time;
`int(os.getenv("DB_PORT", "3306"))` raising `ValueError` falls back to
3306 (lines 18-21). -/
def getDbConfig (env : Env) : DbConfig :=
  { host := getenvD env "DB_HOST" "localhost"
    port := (pyInt (getenvD env "DB_PORT" "3306")).getD 3306
    user := getenvD env "DB_USER" "root"
    password := getenvD env "DB_PASSWORD" ""
    database := getenvD env "DB_NAME" ""
    charset := "utf8mb4"
    autocommit := false }

/-! ## The connection pool (`_connection_pool`, `get_connection`, lines 11-64)

The module-level list `_connection_pool` becomes an explicit state.  A
connection is identified by a numeric id; `nextId` supplies fresh ids for
`pymysql.connect` calls.  `held` is ghost state recording the connections
currently lent to a caller (between the `yield` and the `finally` block);
`closed` and `rolledBack` record the ids on which `close()` respectively
`rollback()` was invoked.  `list.pop()` with no index pops the LAST element
of a Python list, and `list.append` appends at the end.
-/

def poolSize : Nat := 5

structure PoolSt where
  pool : List Nat
  held : List Nat
  nextId : Nat
  closed : List Nat
  rolledBack : List Nat
  deriving DecidableEq, Repr

def initPool : PoolSt :=
  { pool := [], held := [], nextId := 0, closed := [], rolledBack := [] }

/-- Lines 41-48: if the pool list is non-empty, pop its last element and
ping it; on ping failure (`pingOk = false`) a fresh connection is opened
instead (the popped one is simply dropped).  If the pool is empty, open a
fresh connection. -/
def acquireConn (pingOk : Bool) (s : PoolSt) : Nat × PoolSt :=
  if s.pool.isEmpty then
    (s.nextId, { s with held := s.nextId :: s.held, nextId := s.nextId + 1 })
  else
    let c := s.pool.getLastD 0
    let rest := s.pool.dropLast
    if pingOk then
      (c, { s with pool := rest, held := c :: s.held })
    else
      (s.nextId, { s with pool := rest, held := s.nextId :: s.held, nextId := s.nextId + 1 })

/-- Lines 55-64 (the `finally` block): if the pool list holds fewer than
`_pool_size` connections, append the connection, else close it.  The whole
block sits under `try ... except: pass`, so a `close()` that raises
(`closeRaises = true`) is swallowed: the connection is dropped without
being recorded as cleanly closed, and no error propagates (the function is
total either way). -/
def releaseConn (closeRaises : Bool) (s : PoolSt) (c : Nat) : PoolSt :=
  if s.pool.length < poolSize then
    { s with pool := s.pool ++ [c], held := s.held.erase c }
  else if closeRaises then
    { s with held := s.held.erase c }
  else
    { s with closed := s.closed ++ [c], held := s.held.erase c }

/-- Lines 35-64 as a whole: acquire, run the body, roll back on a body
exception (lines 51-54), and always run the `finally` release.  The body's
exception is re-raised to the caller as the `Except.error` result. -/
def withConn (pingOk : Bool) (body : Nat → Except String Unit) (s : PoolSt) :
    Except String Unit × PoolSt :=
  let a := acquireConn pingOk s
  match body a.1 with
  | .ok _ => (.ok (), releaseConn false a.2 a.1)
  | .error e =>
      (.error e, releaseConn false { a.2 with rolledBack := a.2.rolledBack ++ [a.1] } a.1)

/-- One externally observable pool operation: an acquire (with the given
ping outcome), or a release of the `k`-th currently held connection (with
the given close outcome). -/
inductive PoolOp where
  | acq (pingOk : Bool)
  | rel (k : Nat) (closeRaises : Bool)
  deriving DecidableEq, Repr

def poolStep (s : PoolSt) : PoolOp → PoolSt
  | .acq b => (acquireConn b s).2
  | .rel k b =>
      match s.held.get? k with
      | some c => releaseConn b s c
      | none => s

def runPool (ops : List PoolOp) : PoolSt :=
  ops.foldl poolStep initPool

/-- Pool invariant: the reuse list is bounded by the pool size, the pooled
and lent-out connections are pairwise distinct, and all ids are below the
fresh-id counter. -/
def PoolInv (s : PoolSt) : Prop :=
  s.pool.length ≤ poolSize ∧ (s.pool ++ s.held).Nodup ∧
    ∀ c ∈ s.pool ++ s.held, c < s.nextId

/-! ## Environment-aware acquisition (for the configuration claims)

A variant of `acquireConn` that records, for every connection actually
opened via `pymysql.connect(**_get_db_config())` (lines 46 and 48), the
configuration it was opened with.  `_get_db_config()` is called anew at
each open, so the configuration is read from the environment as it is at
that moment. -/

structure ConnRec where
  id : Nat
  config : DbConfig
  deriving DecidableEq, Repr

structure CPoolSt where
  pool : List ConnRec
  nextId : Nat
  deriving Repr

/-- Lines 41-48 with the configuration of each fresh open made explicit:
a reused pooled connection keeps the configuration it was opened with,
while both `pymysql.connect` call sites build a new config from the
current environment. -/
def acquireEnv (env : Env) (pingOk : Bool) (s : CPoolSt) : ConnRec × CPoolSt :=
  match s.pool.getLast? with
  | Option.none => (⟨s.nextId, getDbConfig env⟩, ⟨s.pool, s.nextId + 1⟩)
  | some c =>
      if pingOk then (c, ⟨s.pool.dropLast, s.nextId⟩)
      else (⟨s.nextId, getDbConfig env⟩, ⟨s.pool.dropLast, s.nextId + 1⟩)

/-- A run of successive acquisitions (none released in between), each under
the environment current at that step; returns the opened/reused connections
in order. -/
def runAcquires (steps : List (Env × Bool)) (s : CPoolSt) : List ConnRec × CPoolSt :=
  match steps with
  | [] => ([], s)
  | st :: rest =>
      let a := acquireEnv st.1 st.2 s
      let r := runAcquires rest a.2
      (a.1 :: r.1, r.2)

/-- Environment mapping `DB_HOST` to `db1.internal`. -/
def envA : Env := fun k => if k = "DB_HOST" then some "db1.internal" else Option.none

/-- Environment mapping `DB_HOST` to `db2.internal`: the state of the
process environment after `DB_HOST` is changed. -/
def envB : Env := fun k => if k = "DB_HOST" then some "db2.internal" else Option.none

/-! ## `execute_sql` (lines 218-253)

The database round trip is an explicit input: `execResult` is the outcome
of `cursor.execute(sql)` (and of everything else the driver may raise in
the unit of work), `rows` is what `fetchall()` would deliver on the read
path, and `rowcount` is the driver's affected-row count.  The returned
value models the dictionary handed to `json.dumps`; `SqlEffects` records
whether `conn.commit()` (line 250) and `conn.rollback()` (line 53, reached
via `get_connection`'s except clause) ran. -/

structure DbRun where
  execResult : Except String Unit
  rows : List Row
  rowcount : Int

/-- The dict `execute_sql` serializes: `readOk data count` stands for
`{"data": data, "count": count, "success": true}` (line 248, and line 234
for the empty case), `writeOk n` for `{"affected_rows": n, "success":
true}` (line 251), and `failure e` for `{"error": e, "success": false}`
(line 69). -/
inductive SqlResult where
  | readOk (data : List Row) (count : Nat)
  | writeOk (affectedRows : Int)
  | failure (error : String)
  deriving DecidableEq, Repr

/-- The `success` field of the serialized payload. -/
def SqlResult.success : SqlResult → Bool
  | .readOk _ _ => true
  | .writeOk _ => true
  | .failure _ => false

/-- The `error` field of the serialized payload, when present. -/
def SqlResult.errorField : SqlResult → Option String
  | .failure e => some e
  | _ => Option.none

structure SqlEffects where
  committed : Bool
  rolledBack : Bool
  deriving DecidableEq, Repr

/-- Lines 230-231: `sql.strip().upper()` begins with SELECT, SHOW or DESC. -/
def isReadSql (sql : String) : Bool :=
  let sqlUpper := pyUpper (pyStrip sql)
  pyStartsWith sqlUpper "SELECT" || pyStartsWith sqlUpper "SHOW" ||
    pyStartsWith sqlUpper "DESC"

/-- Lines 218-253.  A raised driver error propagates through
`get_connection`'s except clause (rollback, line 53) to the operation's
own `except` (line 252), which returns the `_format_error` payload; no
exception escapes the function. -/
def executeSql (db : DbRun) (sql : String) : SqlResult × SqlEffects :=
  match db.execResult with
  | .error e => (.failure e, ⟨false, true⟩)
  | .ok _ =>
      if isReadSql sql then
        if db.rows.isEmpty then
          (.readOk [] 0, ⟨false, false⟩)
        else
          let formattedRows := db.rows.foldl (fun acc row => acc ++ [formatRow row]) []
          (.readOk formattedRows formattedRows.length, ⟨false, false⟩)
      else
        (.writeOk db.rowcount, ⟨true, false⟩)

/-! ## `list_tables` (lines 72-116) and `describe_table` (lines 119-215)

The information_schema queries are explicit inputs, given in the order the
`ORDER BY` clauses of the queries produce (`TABLE_NAME` for the table list,
`ORDINAL_POSITION` for columns, `INDEX_NAME, SEQ_IN_INDEX` for index rows).
Outputs: `text s` is the joined success text, `emptyList` stands for
`{"tables": [], "count": 0, "success": true}` (line 97), and `failure e`
for `{"error": e, "success": false}` (lines 69 and 144). -/

inductive TextOut where
  | text (s : String)
  | emptyList
  | failure (error : String)
  deriving DecidableEq, Repr

/-- One row of the table-list query (lines 79-93).  `CREATE_TIME` and
`UPDATE_TIME` are selected and re-stringified (lines 100-104) but never
used by the output lines 106-114, so they are not modelled.  `TABLE_ROWS`
is nullable (`t['rows'] or 0`, line 111). -/
structure TableRow where
  name : String
  comment : String
  engine : String
  rows : Option Int
  deriving DecidableEq, Repr

/-- Lines 108-112: one formatted line per table; the comment segment is
omitted when the comment is empty (Python truthiness). -/
def tableLine (t : TableRow) : String :=
  let line := "- " ++ t.name
  let line := if t.comment ≠ "" then line ++ " (" ++ t.comment ++ ")" else line
  line ++ " [引擎:" ++ t.engine ++ ", 行数:" ++ toString (t.rows.getD 0) ++ "]"

/-- Lines 72-116. -/
def listTables (q : Except String (List TableRow)) : TextOut :=
  match q with
  | .error e => .failure e
  | .ok tables =>
      if tables.isEmpty then .emptyList
      else
        let result := tables.foldl (fun acc t => acc ++ [tableLine t]) []
        .text (String.intercalate "\n" result ++ "\n\n共 " ++ toString tables.length ++ " 个表")

/-- The table-metadata row of lines 133-141 (`CREATE_TIME`/`UPDATE_TIME`
are selected but unused).  `TABLE_ROWS` is nullable (`or 0`, line 149). -/
structure TableInfo where
  TABLE_COMMENT : String
  ENGINE : String
  TABLE_ROWS : Option Int
  deriving DecidableEq, Repr

/-- One row of the column query, lines 153-163.  `COLUMN_DEFAULT` is
selected but never used by the rendering, so it is not modelled. -/
structure ColumnInfo where
  COLUMN_NAME : String
  COLUMN_TYPE : String
  IS_NULLABLE : String
  COLUMN_KEY : String
  EXTRA : String
  COLUMN_COMMENT : String
  deriving DecidableEq, Repr

/-- One row of the statistics query, lines 187-195. -/
structure IndexRow where
  Key_name : String
  Non_unique : Int
  Column_name : String
  deriving DecidableEq, Repr

/-- Lines 168-184: render one column line.  The key attribute is an
`if/elif/elif` chain (PRI before UNI before MUL), then the non-null
marker, then the EXTRA flag; the bracketed attribute list and the comment
suffix are omitted when empty. -/
def colLine (c : ColumnInfo) : String :=
  let line := "  - " ++ c.COLUMN_NAME ++ " (" ++ c.COLUMN_TYPE ++ ")"
  let attrs : List String :=
    (if c.COLUMN_KEY = "PRI" then ["主键"]
     else if c.COLUMN_KEY = "UNI" then ["唯一"]
     else if c.COLUMN_KEY = "MUL" then ["索引"]
     else []) ++
    (if c.IS_NULLABLE = "NO" then ["非空"] else []) ++
    (if c.EXTRA ≠ "" then [c.EXTRA] else [])
  let line := if !attrs.isEmpty then line ++ " [" ++ String.intercalate ", " attrs ++ "]" else line
  if c.COLUMN_COMMENT ≠ "" then line ++ " - " ++ c.COLUMN_COMMENT else line

/-- Lines 200-208: group index rows by name into the insertion-ordered
`idx_map`; the uniqueness flag is set when the name is first seen
(`not Non_unique`, i.e. `NON_UNIQUE = 0`), later rows only append their
column. -/
def idxFold (m : List (String × Bool × List String)) (r : IndexRow) :
    List (String × Bool × List String) :=
  if m.any (fun e => e.1 == r.Key_name) then
    m.map (fun e => if e.1 == r.Key_name then (e.1, e.2.1, e.2.2 ++ [r.Column_name]) else e)
  else
    m ++ [(r.Key_name, r.Non_unique == 0, [r.Column_name])]

/-- Lines 209-211: one line per grouped index. -/
def idxLine (e : String × Bool × List String) : String :=
  "  - " ++ e.1 ++ " (" ++ (if e.2.1 then "唯一" else "普通") ++ "): " ++
    String.intercalate ", " e.2.2

/-- Lines 196-211: the index section, present only when index rows exist. -/
def indexLines (idxs : List IndexRow) : List String :=
  if idxs.isEmpty then []
  else ["", "索引:"] ++ (idxs.foldl idxFold []).map idxLine

/-- Lines 146-211: the `result` list of lines for an existing table. -/
def describeTableLines (tableName : String) (ti : TableInfo) (cols : List ColumnInfo)
    (idxs : List IndexRow) : List String :=
  let result : List String := []
  let result := result ++ ["表名: " ++ tableName]
  let result := result ++
    ["注释: " ++ (if ti.TABLE_COMMENT ≠ "" then ti.TABLE_COMMENT else "无")]
  let result := result ++ ["引擎: " ++ ti.ENGINE]
  let result := result ++ ["行数: " ++ toString (ti.TABLE_ROWS.getD 0)]
  let result := result ++ [""]
  let result := result ++ ["字段列表:"]
  let result := cols.foldl (fun acc c => acc ++ [colLine c]) result
  result ++ indexLines idxs

/-- Lines 119-215.  The query input carries the metadata row (or `none`
when the table does not exist, line 143), the column rows and the index
rows; a raised driver error lands in the `except` of line 214. -/
def describeTable (tableName : String)
    (q : Except String (Option TableInfo × List ColumnInfo × List IndexRow)) : TextOut :=
  match q with
  | .error e => .failure e
  | .ok (Option.none, _, _) => .failure ("表 " ++ tableName ++ " 不存在")
  | .ok (some ti, cols, idxs) =>
      .text (String.intercalate "\n" (describeTableLines tableName ti cols idxs))

/-! ## Helper lemmas -/

theorem foldl_append_map {α β : Type} (f : α → β) (l : List α) :
    ∀ acc : List β, l.foldl (fun r x => r ++ [f x]) acc = acc ++ l.map f := by
  induction l with
  | nil => intro acc; simp
  | cons x xs ih => intro acc; simp [ih, List.append_assoc]

theorem dropLast_concat_getLastD {α : Type} (l : List α) (d : α) (h : l ≠ []) :
    l.dropLast ++ [l.getLastD d] = l := by
  rw [List.getLastD_eq_getLast?, List.getLast?_eq_getLast l h, Option.getD_some]
  exact List.dropLast_append_getLast h

theorem poolInv_acquire (b : Bool) (s : PoolSt) (h : PoolInv s) :
    PoolInv (acquireConn b s).2 ∧ (acquireConn b s).1 ∈ (acquireConn b s).2.held ∧
      (acquireConn b s).1 ∉ (acquireConn b s).2.pool := by
  obtain ⟨h1, h2, h3⟩ := h
  cases hemp : s.pool.isEmpty with
  | true =>
    have hpool : s.pool = [] := List.isEmpty_iff.mp hemp
    simp only [acquireConn, hemp, if_true]
    refine ⟨⟨by simpa using h1, ?_, ?_⟩, by simp, by simp [hpool]⟩
    · rw [hpool] at h2 h3 ⊢
      simp only [List.nil_append] at h2 h3 ⊢
      exact List.nodup_cons.mpr ⟨fun hm => absurd (h3 _ hm) (lt_irrefl _), h2⟩
    · intro x hx
      rw [hpool] at hx h3
      simp only [List.nil_append] at hx h3
      rcases List.mem_cons.mp hx with rfl | hx'
      · exact Nat.lt_succ_self _
      · exact Nat.lt_succ_of_lt (h3 _ hx')
  | false =>
    have hne : s.pool ≠ [] := by
      intro hp; rw [hp] at hemp; simp at hemp
    have hsplit : s.pool.dropLast ++ [s.pool.getLastD 0] = s.pool :=
      dropLast_concat_getLastD _ 0 hne
    have key : s.pool ++ s.held = s.pool.dropLast ++ (s.pool.getLastD 0 :: s.held) := by
      conv_lhs => rw [← hsplit]
      simp [List.append_assoc]
    have hlen : s.pool.dropLast.length ≤ poolSize := by
      rw [List.length_dropLast]; omega
    have hsubrest : s.pool.dropLast.Sublist s.pool := by
      conv_rhs => rw [← hsplit]
      exact List.sublist_append_left _ _
    have hboundrest : ∀ x ∈ s.pool.dropLast ++ s.held, x < s.nextId := by
      intro x hx
      rcases List.mem_append.mp hx with hx' | hx'
      · exact h3 x (List.mem_append.mpr (Or.inl (hsubrest.mem hx')))
      · exact h3 x (List.mem_append.mpr (Or.inr hx'))
    cases b with
    | true =>
      simp only [acquireConn, hemp, Bool.false_eq_true, if_false, if_true]
      refine ⟨⟨hlen, ?_, ?_⟩, by simp, ?_⟩
      · rw [← key]; exact h2
      · intro x hx
        rw [← key] at hx
        exact h3 x hx
      · have hpn : (s.pool.dropLast ++ [s.pool.getLastD 0]).Nodup := by
          rw [hsplit]; exact (List.nodup_append.mp h2).1
        have hd := (List.nodup_append.mp hpn).2.2
        intro hc
        exact hd hc (List.mem_singleton_self _)
    | false =>
      simp only [acquireConn, hemp, Bool.false_eq_true, if_false]
      refine ⟨⟨hlen, ?_, ?_⟩, by simp, ?_⟩
      · refine (List.perm_middle.nodup_iff).mpr (List.nodup_cons.mpr ⟨?_, ?_⟩)
        · intro hm
          exact absurd (hboundrest _ hm) (lt_irrefl _)
        · exact List.Nodup.sublist (List.Sublist.append hsubrest (List.Sublist.refl _)) h2
      · intro x hx
        rcases List.mem_append.mp hx with hx' | hx'
        · exact Nat.lt_succ_of_lt (hboundrest x (List.mem_append.mpr (Or.inl hx')))
        · rcases List.mem_cons.mp hx' with rfl | hx''
          · exact Nat.lt_succ_self _
          · exact Nat.lt_succ_of_lt (hboundrest x (List.mem_append.mpr (Or.inr hx'')))
      · intro hc
        exact absurd (hboundrest _ (List.mem_append.mpr (Or.inl hc))) (lt_irrefl _)

theorem poolInv_release (b : Bool) (s : PoolSt) (c : Nat) (h : PoolInv s) (hc : c ∈ s.held) :
    PoolInv (releaseConn b s c) := by
  obtain ⟨h1, h2, h3⟩ := h
  have hcn : c < s.nextId := h3 c (List.mem_append.mpr (Or.inr hc))
  have herased : ∀ x ∈ s.pool ++ s.held.erase c, x < s.nextId := by
    intro x hx
    rcases List.mem_append.mp hx with hx' | hx'
    · exact h3 x (List.mem_append.mpr (Or.inl hx'))
    · exact h3 x (List.mem_append.mpr (Or.inr (List.mem_of_mem_erase hx')))
  have hnderased : (s.pool ++ s.held.erase c).Nodup :=
    List.Nodup.sublist (List.Sublist.append (List.Sublist.refl _) (List.erase_sublist _ _)) h2
  simp only [releaseConn]
  split
  · next hlt =>
    refine ⟨by simp; omega, ?_, ?_⟩
    · have hp : (s.pool ++ s.held).Perm ((s.pool ++ [c]) ++ s.held.erase c) := by
        rw [List.append_assoc]
        exact List.Perm.append_left s.pool (List.perm_cons_erase hc)
      exact hp.nodup_iff.mp h2
    · intro x hx
      rw [List.append_assoc] at hx
      rcases List.mem_append.mp hx with hx' | hx'
      · exact h3 x (List.mem_append.mpr (Or.inl hx'))
      · rcases List.mem_cons.mp hx' with rfl | hx''
        · exact hcn
        · exact h3 x (List.mem_append.mpr (Or.inr (List.mem_of_mem_erase hx'')))
  · split
    · exact ⟨h1, hnderased, herased⟩
    · exact ⟨h1, hnderased, herased⟩

theorem poolInv_step (s : PoolSt) (op : PoolOp) (h : PoolInv s) : PoolInv (poolStep s op) := by
  cases op with
  | acq b => exact (poolInv_acquire b s h).1
  | rel k b =>
    rcases hget : s.held.get? k with _ | c
    · simpa only [poolStep, hget] using h
    · simpa only [poolStep, hget] using poolInv_release b s c h (List.get?_mem hget)

theorem poolInv_init : PoolInv initPool := by
  refine ⟨by simp [initPool, poolSize], by simp [initPool], by simp [initPool]⟩

theorem poolInv_run (ops : List PoolOp) : PoolInv (runPool ops) := by
  have main : ∀ s, PoolInv s → PoolInv (ops.foldl poolStep s) := by
    induction ops with
    | nil => intro s hs; exact hs
    | cons op rest ih => intro s hs; exact ih _ (poolInv_step s op hs)
  exact main initPool poolInv_init

theorem acquire_pool_lt (b : Bool) (s : PoolSt) (h : s.pool.length ≤ poolSize) :
    (acquireConn b s).2.pool.length < poolSize := by
  cases hemp : s.pool.isEmpty with
  | true =>
    have hpool : s.pool = [] := List.isEmpty_iff.mp hemp
    simp [acquireConn, hemp, hpool, poolSize]
  | false =>
    have hne : s.pool ≠ [] := by
      intro hp; rw [hp] at hemp; simp at hemp
    have hpos : 0 < s.pool.length := List.length_pos.mpr hne
    cases b with
    | true =>
      simp only [acquireConn, hemp, Bool.false_eq_true, if_false, if_true,
        List.length_dropLast]
      omega
    | false =>
      simp only [acquireConn, hemp, Bool.false_eq_true, if_false,
        List.length_dropLast]
      omega

theorem releaseFold (conns : List Nat) :
    ∀ s : PoolSt, s.pool.length ≤ poolSize →
      (conns.foldl (releaseConn false) s).pool =
        s.pool ++ conns.take (poolSize - s.pool.length) ∧
      (conns.foldl (releaseConn false) s).closed =
        s.closed ++ conns.drop (poolSize - s.pool.length) := by
  induction conns with
  | nil => intro s h; simp
  | cons c cs ih =>
    intro s h
    by_cases hlt : s.pool.length < poolSize
    · have hstep : releaseConn false s c =
          { s with pool := s.pool ++ [c], held := s.held.erase c } := by
        simp [releaseConn, hlt]
      have hk : poolSize - s.pool.length = (poolSize - (s.pool.length + 1)) + 1 := by omega
      have ihs := ih { s with pool := s.pool ++ [c], held := s.held.erase c }
        (by simp; omega)
      simp only [List.foldl_cons, hstep]
      rw [hk, List.take_succ_cons, List.drop_succ_cons]
      constructor
      · rw [ihs.1]; simp [List.append_assoc]
      · rw [ihs.2]; simp
    · have heq : s.pool.length = poolSize := by omega
      have hstep : releaseConn false s c =
          { s with closed := s.closed ++ [c], held := s.held.erase c } := by
        simp [releaseConn, hlt]
      have ihs := ih { s with closed := s.closed ++ [c], held := s.held.erase c }
        (by simp [heq])
      simp only [List.foldl_cons, hstep]
      rw [heq]
      simp only [Nat.sub_self, List.take_zero, List.drop_zero]
      constructor
      · rw [ihs.1]; simp [heq]
      · rw [ihs.2]; simp [heq, List.append_assoc]

/-! ## Claim theorems -/

/-- C2: over every sequence of acquire and release operations, the reuse
list never holds more than the configured pool size (5) connections; a
connection handed out by acquire is in the held set and absent from the
reuse list, and at every reachable state every held connection is absent
from the reuse list until it is released. -/
theorem pool_bounded_and_exclusive (ops : List PoolOp) :
    (runPool ops).pool.length ≤ poolSize ∧
    (∀ c ∈ (runPool ops).held, c ∉ (runPool ops).pool) ∧
    (∀ b : Bool, (acquireConn b (runPool ops)).1 ∈ (acquireConn b (runPool ops)).2.held ∧
      (acquireConn b (runPool ops)).1 ∉ (acquireConn b (runPool ops)).2.pool) := by
  have hinv := poolInv_run ops
  obtain ⟨h1, h2, _⟩ := hinv
  refine ⟨h1, ?_, ?_⟩
  · intro c hc hcp
    exact (List.nodup_append.mp h2).2.2 hcp hc
  · intro b
    exact (poolInv_acquire b (runPool ops) (poolInv_run ops)).2

/-- C2 witness: after a single acquire from the empty pool, the handed-out
connection 0 is held and absent from the reuse list, which is within
bounds. -/
theorem pool_bounded_and_exclusive_witness :
    (0 : Nat) ∉ (runPool [PoolOp.acq true]).pool ∧
    (runPool [PoolOp.acq true]).pool.length ≤ poolSize :=
  ⟨(pool_bounded_and_exclusive [PoolOp.acq true]).2.1 0 (by decide),
   (pool_bounded_and_exclusive [PoolOp.acq true]).1⟩

/-- C3: a release appends the connection when the reuse list holds fewer
than `poolSize` connections and closes it otherwise; the retained state is
independent of whether `close()` raised (the error is swallowed); releasing
a whole list of connections into an empty pool retains exactly the first
`poolSize` of them and closes every excess one. -/
theorem release_retention :
    (∀ (b : Bool) (s : PoolSt) (c : Nat), s.pool.length < poolSize →
      (releaseConn b s c).pool = s.pool ++ [c] ∧ (releaseConn b s c).closed = s.closed) ∧
    (∀ (b : Bool) (s : PoolSt) (c : Nat), poolSize ≤ s.pool.length →
      (releaseConn b s c).pool = s.pool ∧
      (releaseConn false s c).closed = s.closed ++ [c]) ∧
    (∀ (b : Bool) (s : PoolSt) (c : Nat),
      (releaseConn b s c).pool = (releaseConn false s c).pool) ∧
    (∀ conns : List Nat, poolSize ≤ conns.length →
      (conns.foldl (releaseConn false) initPool).pool = conns.take poolSize ∧
      (conns.foldl (releaseConn false) initPool).pool.length = poolSize ∧
      (conns.foldl (releaseConn false) initPool).closed = conns.drop poolSize) := by
  refine ⟨?_, ?_, ?_, ?_⟩
  · intro b s c hlt
    simp [releaseConn, hlt]
  · intro b s c hge
    have hnlt : ¬ s.pool.length < poolSize := by omega
    cases b <;> simp [releaseConn, hnlt]
  · intro b s c
    cases b <;> by_cases hlt : s.pool.length < poolSize <;> simp [releaseConn, hlt]
  · intro conns hlen
    have h := releaseFold conns initPool (by simp [initPool, poolSize])
    have hpool0 : initPool.pool = [] := rfl
    have hclosed0 : initPool.closed = [] := rfl
    rw [hpool0, hclosed0] at h
    simp only [List.length_nil, Nat.sub_zero, List.nil_append] at h
    refine ⟨h.1, ?_, h.2⟩
    rw [h.1, List.length_take]
    omega

/-- C3 witness: releasing seven connections into the empty pool retains the
first five and closes the remaining two. -/
theorem release_retention_witness :
    (([10, 11, 12, 13, 14, 15, 16] : List Nat).foldl (releaseConn false) initPool).pool =
      [10, 11, 12, 13, 14] ∧
    (([10, 11, 12, 13, 14, 15, 16] : List Nat).foldl (releaseConn false) initPool).closed =
      [15, 16] := by
  have h := release_retention.2.2.2 [10, 11, 12, 13, 14, 15, 16] (by decide)
  exact ⟨h.1.trans (by decide), h.2.2.trans (by decide)⟩

/-- C10: when the body using an acquired connection fails, the connection
is rolled back and still appended to the reuse list, not closed, and the
next acquire hands out that very connection again. -/
theorem failed_use_returns_to_pool (s : PoolSt) (body : Nat → Except String Unit)
    (e : String) (b : Bool) (hlen : s.pool.length ≤ poolSize)
    (hbody : body (acquireConn b s).1 = .error e) :
    (withConn b body s).1 = .error e ∧
    (withConn b body s).2.pool = (acquireConn b s).2.pool ++ [(acquireConn b s).1] ∧
    (withConn b body s).2.closed = (acquireConn b s).2.closed ∧
    (acquireConn b s).1 ∈ (withConn b body s).2.rolledBack ∧
    (acquireConn true (withConn b body s).2).1 = (acquireConn b s).1 := by
  have hlt : (acquireConn b s).2.pool.length < poolSize := acquire_pool_lt b s hlen
  have hw : withConn b body s =
      (.error e, releaseConn false
        { (acquireConn b s).2 with
            rolledBack := (acquireConn b s).2.rolledBack ++ [(acquireConn b s).1] }
        (acquireConn b s).1) := by
    simp only [withConn, hbody]
  have hrel : releaseConn false
      { (acquireConn b s).2 with
          rolledBack := (acquireConn b s).2.rolledBack ++ [(acquireConn b s).1] }
      (acquireConn b s).1 =
      { (acquireConn b s).2 with
          pool := (acquireConn b s).2.pool ++ [(acquireConn b s).1],
          held := (acquireConn b s).2.held.erase (acquireConn b s).1,
          rolledBack := (acquireConn b s).2.rolledBack ++ [(acquireConn b s).1] } := by
    simp [releaseConn, hlt]
  rw [hw, hrel]
  refine ⟨rfl, rfl, rfl, by simp, ?_⟩
  have hne : ((acquireConn b s).2.pool ++ [(acquireConn b s).1]).isEmpty = false := by
    simp
  simp [acquireConn, hne, List.getLastD_concat]

/-- C10 witness: from the empty pool, a body that fails with "boom" leaves
connection 0 rolled back and back in the reuse list, and the next acquire
returns connection 0. -/
theorem failed_use_returns_to_pool_witness :
    (withConn true (fun _ => Except.error "boom") initPool).1 = Except.error "boom" ∧
    (withConn true (fun _ => Except.error "boom") initPool).2.pool =
      (acquireConn true initPool).2.pool ++ [(acquireConn true initPool).1] ∧
    (acquireConn true (withConn true (fun _ => Except.error "boom") initPool).2).1 =
      (acquireConn true initPool).1 := by
  have h := failed_use_returns_to_pool initPool (fun _ => Except.error "boom") "boom" true
    (by decide) rfl
  exact ⟨h.1, h.2.1, h.2.2.2.2⟩

/-- C4: `execute_sql` classifies by trimming the statement and
case-insensitively inspecting its leading keyword; on the read path it
fetches all rows and returns them with a count, an empty result giving the
explicit `{"data": [], "count": 0, "success": true}` payload; in
particular `execute_sql("SELECT 1")` yields a one-row data list with count
1 and success true. -/
theorem read_classification :
    (∀ (sql : String), isReadSql sql =
      (pyStartsWith (pyUpper (pyStrip sql)) "SELECT" ||
       pyStartsWith (pyUpper (pyStrip sql)) "SHOW" ||
       pyStartsWith (pyUpper (pyStrip sql)) "DESC")) ∧
    (∀ (db : DbRun) (sql : String), db.execResult = .ok () → isReadSql sql = true →
      (db.rows = [] → executeSql db sql = (.readOk [] 0, ⟨false, false⟩)) ∧
      (db.rows ≠ [] →
        (executeSql db sql).1 = .readOk (db.rows.map formatRow) db.rows.length ∧
        ((executeSql db sql).1).success = true)) ∧
    isReadSql "SELECT 1" = true ∧
    executeSql ⟨.ok (), [[("1", PyValue.int 1)]], 0⟩ "SELECT 1" =
      (.readOk [[("1", PyValue.int 1)]] 1, ⟨false, false⟩) ∧
    executeSql ⟨.ok (), [], 0⟩ "SELECT 1" = (.readOk [] 0, ⟨false, false⟩) := by
  refine ⟨fun sql => rfl, ?_, by decide, by decide, by decide⟩
  intro db sql hexec hread
  constructor
  · intro hrows
    simp [executeSql, hexec, hread, hrows]
  · intro hrows
    have hemp : db.rows.isEmpty = false := by
      rw [List.isEmpty_eq_false]; exact hrows
    have hfold : db.rows.foldl (fun acc row => acc ++ [formatRow row]) [] =
        db.rows.map formatRow := by
      simpa using foldl_append_map formatRow db.rows []
    constructor
    · simp [executeSql, hexec, hread, hemp, hfold]
    · simp [executeSql, hexec, hread, hemp, SqlResult.success]

/-- C4 witness: a read statement with an empty result returns the explicit
empty payload, via the classification theorem applied at "SHOW TABLES". -/
theorem read_classification_witness :
    executeSql ⟨.ok (), [], 0⟩ "SHOW TABLES" = (.readOk [] 0, ⟨false, false⟩) :=
  ((read_classification.2.1 ⟨.ok (), [], 0⟩ "SHOW TABLES" rfl (by decide)).1) rfl

/-- C5: every driver error in any of the three operations is caught at the
operation boundary and returned as the structured `{"error": e, "success":
false}` payload, never propagated (the operations are total functions of
the driver outcome); on a failing `execute_sql` the transaction is rolled
back and not committed, so `execute_sql("INVALID SQL")` returns
success=false with a non-empty error and no uncommitted side effects. -/
theorem error_boundary :
    (∀ e : String, listTables (.error e) = .failure e) ∧
    (∀ (tableName e : String), describeTable tableName (.error e) = .failure e) ∧
    (∀ (e sql : String) (rows : List Row) (rc : Int),
      executeSql ⟨.error e, rows, rc⟩ sql = (.failure e, ⟨false, true⟩) ∧
      (SqlResult.failure e).success = false ∧
      (SqlResult.failure e).errorField = some e) ∧
    executeSql ⟨.error "You have an error in your SQL syntax", [], 0⟩ "INVALID SQL" =
      (.failure "You have an error in your SQL syntax", ⟨false, true⟩) ∧
    ("You have an error in your SQL syntax" : String) ≠ "" := by
  refine ⟨fun e => rfl, fun tn e => rfl, ?_, rfl, by decide⟩
  intro e sql rows rc
  exact ⟨rfl, rfl, rfl⟩

/-- C6: every statement whose trimmed, uppercased form does not begin with
SELECT, SHOW or DESC takes the write path: the transaction is committed and
`{"affected_rows": rowcount, "success": true}` is returned; an UPDATE
matching no rows yields affected_rows 0 with success true. -/
theorem write_path_commit :
    (∀ (db : DbRun) (sql : String), db.execResult = .ok () → isReadSql sql = false →
      executeSql db sql = (.writeOk db.rowcount, ⟨true, false⟩) ∧
      ((executeSql db sql).1).success = true) ∧
    isReadSql "UPDATE t SET x=1 WHERE id=999" = false ∧
    executeSql ⟨.ok (), [], 0⟩ "UPDATE t SET x=1 WHERE id=999" =
      (.writeOk 0, ⟨true, false⟩) := by
  refine ⟨?_, by decide, by decide⟩
  intro db sql hexec hwrite
  constructor
  · simp [executeSql, hexec, hwrite]
  · simp [executeSql, hexec, hwrite, SqlResult.success]

/-- C6 witness: a DELETE with driver row count 3 commits and reports 3
affected rows, via the write-path theorem applied at a concrete input. -/
theorem write_path_commit_witness :
    executeSql ⟨.ok (), [], 3⟩ "DELETE FROM t" = (.writeOk 3, ⟨true, false⟩) :=
  (write_path_commit.1 ⟨.ok (), [], 3⟩ "DELETE FROM t" rfl (by decide)).1

/-- C9: when the table-metadata query returns no match, `describe_table`
returns the structured not-found payload `{"error": "表 <name> 不存在",
"success": false}`; being a total function of the query outcome, it never
propagates an exception. -/
theorem describe_table_not_found (tableName : String)
    (cols : List ColumnInfo) (idxs : List IndexRow) :
    describeTable tableName (.ok (Option.none, cols, idxs)) =
      .failure ("表 " ++ tableName ++ " 不存在") ∧
    (TextOut.failure ("表 " ++ tableName ++ " 不存在")) ≠ .text "" :=
  ⟨rfl, by simp⟩

/-- C1 counterexample: for the same point in time (2020-01-01 midnight), a
DATE column serializes as "2020-01-01" while a DATETIME (and TIMESTAMP)
column serializes as "2020-01-01T00:00:00" — the ISO strings are not
byte-identical across the three column types. -/
theorem date_serialization_not_uniform :
    (executeSql ⟨.ok (),
        [[("c1", pymysqlConvert .DATE ⟨2020, 1, 1, 0, 0, 0, 0⟩),
          ("c2", pymysqlConvert .DATETIME ⟨2020, 1, 1, 0, 0, 0, 0⟩),
          ("c3", pymysqlConvert .TIMESTAMP ⟨2020, 1, 1, 0, 0, 0, 0⟩)]], 0⟩ "SELECT 1").1 =
      .readOk [[("c1", .str "2020-01-01"), ("c2", .str "2020-01-01T00:00:00"),
                ("c3", .str "2020-01-01T00:00:00")]] 1 ∧
    ("2020-01-01" : String) ≠ "2020-01-01T00:00:00" := by
  constructor
  · decide
  · decide

/-- C1 amended: on the read path every date/time value in the result rows
is replaced by its ISO-8601 `isoformat` string, and that string is
byte-identical between DATETIME and TIMESTAMP for the same point in time;
a DATE column, however, serializes to the date-only form, which differs
from the DATETIME/TIMESTAMP form at the same point in time. -/
theorem datetime_serialization_amended :
    (∀ (db : DbRun) (sql : String), db.execResult = .ok () → isReadSql sql = true →
      db.rows ≠ [] →
      (executeSql db sql).1 = .readOk (db.rows.map formatRow) db.rows.length) ∧
    (∀ d : PyDate, formatValue (.date d) = .str d.isoformat) ∧
    (∀ t : PyDateTime, formatValue (.datetime t) = .str t.isoformat) ∧
    (∀ t : PyDateTime,
      formatValue (pymysqlConvert .DATETIME t) = formatValue (pymysqlConvert .TIMESTAMP t)) := by
  refine ⟨?_, fun d => rfl, fun t => rfl, fun t => rfl⟩
  intro db sql hexec hread hrows
  exact ((read_classification.2.1 db sql hexec hread).2 hrows).1

/-- C1 amended witness: a single DATE cell is replaced by its ISO string,
via the amended theorem applied at a concrete read. -/
theorem datetime_serialization_amended_witness :
    (executeSql ⟨.ok (), [[("d", PyValue.date ⟨2021, 6, 30⟩)]], 0⟩ "SELECT d FROM t").1 =
      .readOk [[("d", PyValue.str "2021-06-30")]] 1 := by
  have h := datetime_serialization_amended.1 ⟨.ok (), [[("d", PyValue.date ⟨2021, 6, 30⟩)]], 0⟩
    "SELECT d FROM t" rfl (by decide) (by decide)
  exact h.trans (by decide)

/-- C7 counterexample: the configuration is not constructed once; two
connections opened across a change of `DB_HOST` carry different hosts, so
a connection opened after the environment changes does not use the initial
configuration. -/
theorem config_env_counterexample :
    (runAcquires [(envA, true), (envB, true)] ⟨[], 0⟩).1.map (fun c => c.config.host) =
      ["db1.internal", "db2.internal"] ∧
    (acquireEnv envB true (acquireEnv envA true ⟨[], 0⟩).2).1.config ≠
      (acquireEnv envA true ⟨[], 0⟩).1.config ∧
    (acquireEnv envA true ⟨[], 0⟩).1.config = getDbConfig envA := by
  refine ⟨by decide, by decide, by decide⟩

/-- C7 amended: `_get_db_config` is evaluated anew at every
`pymysql.connect` call, so each freshly opened or reconnected connection
uses the configuration read from the environment at that moment (with
fixed charset "utf8mb4" and autocommit off), while a pooled connection
reused via a successful ping keeps the configuration it was opened with. -/
theorem config_read_at_connect (env : Env) (s : CPoolSt) (b : Bool) :
    (s.pool = [] → (acquireEnv env b s).1.config = getDbConfig env) ∧
    (s.pool ≠ [] → (acquireEnv env false s).1.config = getDbConfig env) ∧
    (∀ c : ConnRec, s.pool.getLast? = some c → (acquireEnv env true s).1 = c) ∧
    (getDbConfig env).charset = "utf8mb4" ∧
    (getDbConfig env).autocommit = false := by
  refine ⟨?_, ?_, ?_, rfl, rfl⟩
  · intro hp
    have hl : s.pool.getLast? = Option.none := by simp [hp]
    simp [acquireEnv, hl]
  · intro hp
    rcases hl : s.pool.getLast? with _ | c
    · exact absurd (List.getLast?_eq_none_iff.mp hl) hp
    · simp [acquireEnv, hl]
  · intro c hl
    simp [acquireEnv, hl]

/-- C7 amended witness: the first fresh connection under `envA` is opened
with exactly `getDbConfig envA`, via the amended theorem at the empty
pool. -/
theorem config_read_at_connect_witness :
    (acquireEnv envA true ⟨[], 0⟩).1.config = getDbConfig envA ∧
    (getDbConfig envA).charset = "utf8mb4" := by
  have h := config_read_at_connect envA ⟨[], 0⟩ true
  exact ⟨h.1 rfl, h.2.2.2.1⟩

/-- C8: for an existing table, `describe_table` renders the column section
as one line per `information_schema.COLUMNS` row, in the given (ordinal)
order, non-empty whenever the table has columns; each line is
`  - name (type) [attrs] - comment` with the key attribute chosen by the
PRI-before-UNI-before-MUL chain, a non-null marker when not nullable, and
the EXTRA flag appended. -/
theorem describe_table_columns_ordered (tn : String) (ti : TableInfo)
    (cols : List ColumnInfo) (idxs : List IndexRow) (hc : cols ≠ []) :
    describeTable tn (.ok (some ti, cols, idxs)) =
      .text (String.intercalate "\n"
        (["表名: " ++ tn,
          "注释: " ++ (if ti.TABLE_COMMENT ≠ "" then ti.TABLE_COMMENT else "无"),
          "引擎: " ++ ti.ENGINE,
          "行数: " ++ toString (ti.TABLE_ROWS.getD 0),
          "",
          "字段列表:"] ++ cols.map colLine ++ indexLines idxs)) ∧
    cols.map colLine ≠ [] ∧
    (∀ i : Nat, (cols.map colLine)[i]? = (cols[i]?).map colLine) ∧
    (∀ c : ColumnInfo, colLine c =
      (let line := "  - " ++ c.COLUMN_NAME ++ " (" ++ c.COLUMN_TYPE ++ ")"
       let attrs : List String :=
         (if c.COLUMN_KEY = "PRI" then ["主键"]
          else if c.COLUMN_KEY = "UNI" then ["唯一"]
          else if c.COLUMN_KEY = "MUL" then ["索引"]
          else []) ++
         (if c.IS_NULLABLE = "NO" then ["非空"] else []) ++
         (if c.EXTRA ≠ "" then [c.EXTRA] else [])
       let line := if !attrs.isEmpty then line ++ " [" ++ String.intercalate ", " attrs ++ "]"
         else line
       if c.COLUMN_COMMENT ≠ "" then line ++ " - " ++ c.COLUMN_COMMENT else line)) := by
  refine ⟨?_, by simpa using hc, ?_, fun c => rfl⟩
  · simp [describeTable, describeTableLines, foldl_append_map, List.append_assoc]
  · intro i
    exact List.getElem?_map colLine cols i

/-- C8 witness: a one-column table (primary key, non-null, auto-increment)
renders a non-empty, ordered column section, via the theorem applied at a
concrete schema. -/
theorem describe_table_columns_ordered_witness :
    describeTable "users" (.ok (some ⟨"", "InnoDB", some 10⟩,
        [⟨"id", "int", "NO", "PRI", "auto_increment", "主键ID"⟩], [])) =
      .text "表名: users\n注释: 无\n引擎: InnoDB\n行数: 10\n\n字段列表:\n  - id (int) [主键, 非空, auto_increment] - 主键ID" ∧
    ([(⟨"id", "int", "NO", "PRI", "auto_increment", "主键ID"⟩ : ColumnInfo)].map colLine) ≠ [] := by
  have h := describe_table_columns_ordered "users" ⟨"", "InnoDB", some 10⟩
    [⟨"id", "int", "NO", "PRI", "auto_increment", "主键ID"⟩] [] (by simp)
  exact ⟨h.1.trans (by decide), h.2.1⟩

end Keevor
